import Mathlib

/-!
Verification of the 4over6 VPN client backend (`native-lib.cpp`).

The development shallowly embeds the protocol/relay logic of the C++ source:
machine `u32` arithmetic is `Nat` with explicit `% u32lim`, the byte stream
delivered by the TCP socket is a `List Nat` of byte values, and the results of
the raw `recv`/`send`/`read` system calls are supplied as explicit parameters
(an oracle trace), since the embedding is single-threaded and deterministic.
-/

/-- Modulus of the C `u32` (`unsigned int`) type: 2^32. -/
def u32lim : Nat := 4294967296

/-- Little-endian byte image of a `u32` value, as laid out in the first four
bytes of the C `Message` struct on the (little-endian) Android targets. -/
def toLE4 (n : Nat) : List Nat :=
  [n % 256, n / 256 % 256, n / 65536 % 256, n / 16777216 % 256]

/-- Read a `u32` back from four little-endian bytes (used when `recv_message`
reads the length prefix into `message.length`). -/
def fromLE4 : List Nat → Nat
  | [a, b, c, d] => a + 256 * b + 65536 * c + 16777216 * d
  | _ => 0

/-- The `Message` struct of `native-lib.cpp`: `length` counts the length field
itself, the type byte and the payload (`length = payload size + 5`); `data`
holds only the payload bytes actually occupied. -/
structure Message where
  length : Nat
  type : Nat
  data : List Nat
deriving DecidableEq, Repr

/-- Frame bytes placed on the wire for a `(type, payload)` pair, as built by
`send_thread` (and by the constant `ip_request` / `heartbeat` messages):
`message.length = payload length + 5` (a `u32`), then the type byte, then the
payload; `send_raw(&message, message.length)` transmits exactly these bytes. -/
def encode (t : Nat) (payload : List Nat) : List Nat :=
  toLE4 ((payload.length + 5) % u32lim) ++ t :: payload

/-- The `recv_message` function. `recv_raw` delivers bytes from the stream only
while `running || ip_requesting` holds (its loop guard); on a healthy stream it
returns exactly the requested bytes when available and whatever is left
otherwise. `recv_message` first reads 4 bytes into `message.length`, fails if
fewer than 4 arrived **or `running` is false** (the literal
`size < sizeof(u32) || !running` test of the source), then reads
`message.length - sizeof(u32)` further bytes (u32 subtraction) and succeeds iff
their count plus 4 equals `message.length`. Stack garbage in the unread part of
the struct is modelled as 0. Returns the decoded message and the unconsumed
remainder of the stream. -/
def recv_message (running ip_requesting : Bool) (s : List Nat) :
    Option (Message × List Nat) :=
  let hdr := if running || ip_requesting then s.take 4 else []
  if hdr.length < 4 ∨ running = false then none
  else
    let len := fromLE4 hdr
    let rest := s.drop 4
    let bodyLen := (len + u32lim - 4) % u32lim
    let body := if running || ip_requesting then rest.take bodyLen else []
    if body.length + 4 = len then
      some ({ length := len, type := body.headD 0, data := body.drop 1 },
            rest.drop bodyLen)
    else none

/-- The `send_raw` function: refuses when neither `running` nor `ip_requesting`
is set; otherwise compares the `int` result of `send` against the `u32`
`length`, which in C converts `sent` to unsigned (`sent % 2^32`), and returns
-1 on a short transfer, else the transfer count. `sendResult` is the value the
`send` system call returned. -/
def send_raw (running ip_requesting : Bool) (length : Nat) (sendResult : Int) :
    Int :=
  if running = false ∧ ip_requesting = false then -1
  else if (sendResult % (u32lim : Int)).toNat < length then -1
  else sendResult

/-- The `recv_raw` retry loop, driven by the trace `events` of successive
`recv` return values (negative = timeout, zero = nothing arrived, positive =
that many bytes read). Returns the accumulated byte count and the number of
`connect` (reconnect) calls performed. The loop guard
`(running || ip_requesting) && received < length` is re-checked before each
`recv`; a timeout increments `times_retry` and breaks without reconnecting
when it reaches `RECONNECT_LIMIT` (3), otherwise sleeps and reconnects; a
zero read resets `times_retry`; a positive read resets it and accumulates. -/
def recv_raw (active : Bool) (length : Nat) :
    List Int → Nat → Nat → Nat × Nat
  | [], received, _ => (received, 0)
  | e :: es, received, timesRetry =>
    if active = false ∨ length ≤ received then (received, 0)
    else if e < 0 then
      if timesRetry + 1 = 3 then (received, 0)
      else
        let p := recv_raw active length es received (timesRetry + 1)
        (p.1, p.2 + 1)
    else if e = 0 then recv_raw active length es received 0
    else recv_raw active length es (received + e.toNat) 0

/-- One iteration of the `send_thread` uplink loop body. `readResult` is the
`ssize_t` returned by `read(tunfd, ...)`; the source stores it into
`u32 length`, so it is converted modulo 2^32. `payload` is the content of
`message.data` after the read (the struct was `memset` to zero, so unread
bytes are 0). When the converted length is positive the thread sets
`message.length = length + 5` (u32), `message.type = NET_REQUEST` (102), hands
the first `message.length` bytes of the struct to `send_raw`, and adds
`message.length` to `bytes_sent`. Returns the bytes handed to `send_raw` (if
any) and the new `bytes_sent`. -/
def send_thread_step (readResult : Int) (payload : List Nat)
    (bytes_sent : Nat) : Option (List Nat) × Nat :=
  let length := (readResult % (u32lim : Int)).toNat
  if 0 < length then
    let msglen := (length + 5) % u32lim
    (some ((toLE4 msglen ++ 102 :: payload).take msglen),
     (bytes_sent + msglen) % u32lim)
  else (none, bytes_sent)

/-- The loop of `pretty(value, scale, units, m)`:
`while (value > scale && count < m - 1) { value /= scale; count += 1; }`.
`fuel` is the remaining headroom `m - 1 - count` of the count bound, so the
initial call of `pretty` (with `count = 0`) uses `fuel = m - 1`; the second
component returned is the number of divisions performed, i.e. the final
`count`, and the first is the final `value`. -/
def pretty_go (scale : Nat) : Nat → Nat → Nat × Nat
  | value, 0 => (value, 0)
  | value, fuel + 1 =>
    if scale < value then
      let p := pretty_go scale (value / scale) fuel
      (p.1, p.2 + 1)
    else (value, 0)

/-- Final unit index computed by `pretty(value, scale, units, m)`. -/
def prettyCount (value scale m : Nat) : Nat := (pretty_go scale value (m - 1)).2

/-- Unit index used by `prettySize(size)`, which calls
`pretty(size, 1024, units, 5)` on a 4-entry unit array. -/
def prettySizeIndex (size : Nat) : Nat := prettyCount size 1024 5

/-- Process-wide session state of `native-lib.cpp`: the socket handle, the
`running` flag, and the five `u32` counters (all counters below `u32lim`). -/
structure State where
  sockfd : Int
  running : Bool
  time_connected : Nat
  time_last_heartbeat : Nat
  time_send_heartbeat : Nat
  bytes_sent : Nat
  bytes_recv : Nat
deriving DecidableEq, Repr

/-- The supervisor tick `Java_com_lyricz_a4over6vpn_VPNService_tik`. Returns
the new state, whether `send_heartbeat()` was invoked, and whether a
(non-empty) status string was returned (`false` = the empty string). All
counter arithmetic is u32: increments wrap modulo 2^32 and
`time_connected - time_last_heartbeat` is u32 subtraction. -/
def tik (s : State) : State × Bool × Bool :=
  if s.sockfd = -1 ∨ s.running = false then (s, false, false)
  else
    let tc := (s.time_connected + 1) % u32lim
    if 60 < (tc + u32lim - s.time_last_heartbeat) % u32lim then
      ({ s with time_connected := tc, running := false }, false, false)
    else
      let hs := (s.time_send_heartbeat + 1) % u32lim
      if hs = 20 then
        ({ s with time_connected := tc, time_send_heartbeat := 0 }, true, true)
      else
        ({ s with time_connected := tc, time_send_heartbeat := hs },
         false, true)

/-- Number of heartbeat sends over `n` consecutive supervisor ticks. -/
def tikCount : Nat → State → Nat
  | 0, _ => 0
  | n + 1, s => (if (tik s).2.1 = true then 1 else 0) + tikCount n (tik s).1

/-- The polling loop of `Java_com_lyricz_a4over6vpn_VPNService_request`. The
C loop runs `while (elapsed < REQUEST_TIMEOUT_USEC)` and adds
`REQUEST_CHECK_INTERVAL_USEC` (5000) to `elapsed` after each decoded
non-reply frame, so it makes at most `2000000 / 5000 = 400` decode attempts;
`fuel` counts the decode attempts remaining, i.e.
`(REQUEST_TIMEOUT_USEC - elapsed) / REQUEST_CHECK_INTERVAL_USEC`. During the
loop `ip_requesting` is true. Returns the payload of the first `IP_REPLY`
(101) frame decoded, or `none` on decode failure or timeout. -/
def request_go (running : Bool) : Nat → List Nat → Option (List Nat)
  | 0, _ => none
  | fuel + 1, s =>
    match recv_message running true s with
    | none => none
    | some (m, rest) =>
      if m.type = 101 then some m.data else request_go running fuel rest

/-- The `Java_com_lyricz_a4over6vpn_VPNService_request` API: returns the
address payload (`none` = the empty string) and the final `sockfd`. With
`sockfd = -1` it returns immediately; on success it returns the reply payload
leaving the socket open; on loop exit (decode failure or timeout) it shuts the
socket down and clears the handle to -1. -/
def request (running : Bool) (sockfd : Int) (s : List Nat) :
    Option (List Nat) × Int :=
  if sockfd = -1 then (none, sockfd)
  else
    match request_go running 400 s with
    | some d => (some d, sockfd)
    | none => (none, -1)

/-- The sequence of frames obtainable from a byte stream by repeated
`recv_message` during an active session (`running` and `ip_requesting` both
true), up to `fuel` frames; stops at the first decode failure. -/
def parseFrames : Nat → List Nat → List Message
  | 0, _ => []
  | fuel + 1, s =>
    match recv_message true true s with
    | none => []
    | some (m, rest) => m :: parseFrames fuel rest

/-! ## Helper lemmas -/

lemma fromLE4_toLE4 (n : Nat) (h : n < u32lim) : fromLE4 (toLE4 n) = n := by
  simp only [toLE4, fromLE4]
  unfold u32lim at h
  omega

/-! ## Claims -/

/-- C1: for every type byte and every payload of length at most 4096, encoding
the pair as a frame (4-byte total-length field equal to payload length + 5,
1-byte type, payload bytes) and decoding that frame with the receive path
(`recv_message` in relay mode) reconstructs exactly the original type and
payload, consuming the whole frame. -/
theorem framing_roundtrip (t : Nat) (p : List Nat) (ht : t < 256)
    (hp : p.length ≤ 4096) :
    recv_message true false (encode t p) =
      some ({ length := p.length + 5, type := t, data := p }, []) := by
  have hL : (p.length + 5) % u32lim = p.length + 5 := by
    apply Nat.mod_eq_of_lt; unfold u32lim; omega
  have h4 : (toLE4 (p.length + 5)).length = 4 := by simp [toLE4]
  have htake : ((toLE4 (p.length + 5)) ++ t :: p).take 4 = toLE4 (p.length + 5) := by
    rw [← h4, List.take_left]
  have hdrop : ((toLE4 (p.length + 5)) ++ t :: p).drop 4 = t :: p := by
    rw [← h4, List.drop_left]
  have hfrom : fromLE4 (toLE4 (p.length + 5)) = p.length + 5 :=
    fromLE4_toLE4 _ (by unfold u32lim; omega)
  have hbodyLen : (p.length + 5 + u32lim - 4) % u32lim = p.length + 1 := by
    have h1 : p.length + 5 + u32lim - 4 = (p.length + 1) + u32lim := by omega
    rw [h1, Nat.add_mod_right]
    apply Nat.mod_eq_of_lt; unfold u32lim; omega
  have htake2 : (t :: p).take (p.length + 1) = t :: p :=
    List.take_of_length_le (by simp)
  have hdrop2 : (t :: p).drop (p.length + 1) = [] :=
    List.drop_eq_nil_of_le (by simp)
  simp only [recv_message, encode, hL, htake, hdrop, hfrom, hbodyLen, htake2,
    hdrop2, h4, Bool.true_or, if_true, List.length_cons, List.headD_cons,
    List.drop_one, List.tail_cons]
  norm_num

/-- C1 witness: concrete round trip of a DataRequest frame with payload
`[10, 0, 0, 1]`. -/
theorem framing_roundtrip_witness :
    recv_message true false (encode 102 [10, 0, 0, 1]) =
      some ({ length := 9, type := 102, data := [10, 0, 0, 1] }, []) :=
  framing_roundtrip 102 [10, 0, 0, 1] (by decide) (by decide)

/-- C2: the code contradicts the claim. With the session in awaiting-address
mode (`running = false`, `ip_requesting = true`), a complete AddressReply
frame (type 101, payload "10.0.0.2") on the stream is **not** decoded:
`recv_message` fails because of its `!running` test even though `recv_raw`
delivered the header bytes, so `request` breaks out of its loop, shuts the
socket down (handle -1) and returns the empty string instead of the address. -/
theorem request_addr_reply_dropped :
    recv_message false true (encode 101 [49, 48, 46, 48, 46, 48, 46, 50]) =
        none ∧
      request false 5 (encode 101 [49, 48, 46, 48, 46, 48, 46, 50]) =
        (none, -1) := by
  decide

/-- C6: the code contradicts the claim's reconnect bound. Three consecutive
timeouts on a 1-byte read perform only **2** reconnect attempts (the third
timeout reaches `RECONNECT_LIMIT` and breaks without calling `connect`),
not one reconnect per negative read up to a limit of 3; the read does give up
returning 0 of the 1 requested bytes. -/
theorem recv_raw_reconnect_counterexample :
    recv_raw true 1 [-1, -1, -1] 0 0 = (0, 2) ∧
      ¬ (recv_raw true 1 [-1, -1, -1] 0 0).2 = 3 := by
  decide

/-- C6 (amended): a zero-byte read resets the retry counter (shown for a
counter already at 1, erasing the penalty), and three consecutive timeouts
give up after exactly 2 reconnect attempts, returning only the bytes gathered
so far — fewer than requested. -/
theorem recv_raw_retry_amended (length received : Nat) (es : List Int)
    (h : received < length) :
    recv_raw true length ((0 : Int) :: es) received 1 =
        recv_raw true length es received 0 ∧
      recv_raw true length ((-1 : Int) :: -1 :: -1 :: es) received 0 =
        (received, 2) := by
  have hc : ¬ (true = false ∨ length ≤ received) := by
    simp [Nat.not_le.mpr h]
  constructor
  · rw [recv_raw, if_neg hc]
    norm_num
  · rw [recv_raw, if_neg hc]
    norm_num
    rw [recv_raw, if_neg hc]
    norm_num
    rw [recv_raw, if_neg hc]
    norm_num

/-- C6 witness: instantiation at a 1-byte read with no earlier bytes. -/
theorem recv_raw_retry_amended_witness :
    recv_raw true 1 [(0 : Int)] 0 1 = recv_raw true 1 [] 0 0 ∧
      recv_raw true 1 [(-1 : Int), -1, -1] 0 0 = (0, 2) :=
  recv_raw_retry_amended 1 0 [] (by decide)

/-- C7: the code contradicts the claim for negative tun reads. `read`
returning -1 is stored into a `u32`, becoming 4294967295 > 0, so the uplink
iteration builds a bogus frame: `message.length = 4294967295 + 5 = 4` (u32
wrap-around), and it hands 4 bytes `[4, 0, 0, 0]` (a length field only, no
type byte) to `send_raw` and adds 4 to `bytes_sent`, instead of treating the
read as "nothing ready" and sending nothing. -/
theorem send_thread_negative_read :
    send_thread_step (-1) (List.replicate 4096 0) 0 =
        (some [4, 0, 0, 0], 4) ∧
      send_thread_step 0 (List.replicate 4096 0) 0 = (none, 0) := by
  constructor
  · rfl
  · rfl

/-- C8: `send_raw` returns -1 whenever no logical session is active (neither
`running` nor `ip_requesting`); when a session is active, it returns -1
whenever the underlying `send` transferred fewer bytes than requested
(`sendResult < length`, including the -1 error return, which transfers
nothing) — a short write is never retried or reported as success. -/
theorem send_raw_errors (running ip_requesting : Bool) (length : Nat)
    (sendResult : Int) (hlen : length < u32lim) :
    (running = false → ip_requesting = false →
        send_raw running ip_requesting length sendResult = -1) ∧
      ((running = true ∨ ip_requesting = true) → -1 ≤ sendResult →
        sendResult < (length : Int) →
        send_raw running ip_requesting length sendResult = -1) := by
  constructor
  · intro hr hi
    simp [send_raw, hr, hi]
  · intro hact hge hlt
    have hcond : ¬ (running = false ∧ ip_requesting = false) := by
      rcases hact with h | h <;> simp [h]
    rw [send_raw, if_neg hcond]
    rcases eq_or_lt_of_le hge with he | hpos
    · -- send returned -1: (u32)(-1) = u32lim - 1 ≥ length, so the short-write
      -- test fails and send_raw returns the -1 from send itself
      rw [← he]
      have : ((-1 : Int) % (u32lim : Int)).toNat = u32lim - 1 := by
        unfold u32lim; decide
      rw [this, if_neg (by unfold u32lim at hlen ⊢; omega)]
    · -- genuine short write 0 ≤ sendResult < length
      have h0 : 0 ≤ sendResult := by omega
      have hmod : sendResult % (u32lim : Int) = sendResult := by
        apply Int.emod_eq_of_lt h0
        have : (length : Int) ≤ (u32lim : Int) := by exact_mod_cast hlen.le
        omega
      rw [hmod, if_pos (by omega)]

/-- C8 witness: with an active session, a 4-of-10-byte short write and a -1
send error both yield -1; with no session, send_raw yields -1. -/
theorem send_raw_errors_witness :
    ((false = false → false = false → send_raw false false 10 7 = -1) ∧
      ((false = true ∨ false = true) → -1 ≤ (7 : Int) → (7 : Int) < 10 →
        send_raw false false 10 7 = -1)) ∧
    ((true = false → false = false → send_raw true false 10 4 = -1) ∧
      ((true = true ∨ false = true) → -1 ≤ (4 : Int) → (4 : Int) < 10 →
        send_raw true false 10 4 = -1)) :=
  ⟨send_raw_errors false false 10 7 (by decide),
   send_raw_errors true false 10 4 (by decide)⟩

/-- Bounding lemma for the `pretty` loop: if the starting value is at most
`1024 ^ (k + 1)` then at most `k` divisions happen and (when at least `k`
iterations of headroom remain) the final value is at most 1024. -/
lemma pretty_go_bound : ∀ (fuel k v : Nat), v ≤ 1024 ^ (k + 1) → k ≤ fuel →
    (pretty_go 1024 v fuel).2 ≤ k ∧
      (pretty_go 1024 v fuel).1 ≤ 1024 := by
  intro fuel
  induction fuel with
  | zero =>
    intro k v hv hk
    interval_cases k
    simpa [pretty_go] using hv
  | succ fuel ih =>
    intro k v hv hk
    by_cases hgt : 1024 < v
    · match k with
      | 0 => omega
      | j + 1 =>
        have hdiv : v / 1024 ≤ 1024 ^ (j + 1) := by
          have h1 : v ≤ 1024 ^ (j + 1) * 1024 := by
            calc v ≤ 1024 ^ (j + 1 + 1) := hv
            _ = 1024 ^ (j + 1) * 1024 := by ring
          calc v / 1024 ≤ 1024 ^ (j + 1) * 1024 / 1024 :=
                Nat.div_le_div_right h1
          _ = 1024 ^ (j + 1) := Nat.mul_div_cancel _ (by norm_num)
        have := ih j (v / 1024) hdiv (by omega)
        simp only [pretty_go, if_pos hgt]
        exact ⟨by omega, this.2⟩
    · simp [pretty_go, hgt]
      omega

/-- C9: for every u32 byte count, `prettySize` performs at most three
divisions by 1024 (the value having dropped to 1024 or below by then), so the
unit index stays at most 3 and `units[4]`, the never-initialized fifth entry
of the four-element unit array, is never read, even though `m = 5` would
allow index 4. -/
theorem prettySize_index_bound (v : Nat) (h : v < u32lim) :
    prettySizeIndex v ≤ 3 ∧ (pretty_go 1024 v 4).1 ≤ 1024 := by
  have hv : v ≤ 1024 ^ (3 + 1) := by
    have h4 : (1024 : Nat) ^ (3 + 1) = 1099511627776 := by norm_num
    unfold u32lim at h
    omega
  have := pretty_go_bound 4 3 v hv (by omega)
  exact ⟨this.1, this.2⟩

/-- C9 witness: the largest u32 value stops after exactly 3 divisions. -/
theorem prettySize_index_bound_witness :
    prettySizeIndex 4294967295 ≤ 3 ∧
      (pretty_go 1024 4294967295 4).1 ≤ 1024 :=
  prettySize_index_bound 4294967295 (by decide)

/-- C3: the code contradicts the claim at both of its boundary cases. With
seconds-connected 61 and last-heartbeat 0 before the tick, the tick clears
`running` but leaves the socket handle untouched (still 7, not closed); and
with seconds-connected 60 (i.e. "60 or below") before the tick, the tick
**does** terminate the session (the post-increment gap 61 exceeds 60). -/
theorem tik_staleness_counterexample :
    ¬ ((tik ⟨7, true, 61, 0, 0, 0, 0⟩).1.sockfd = -1 ∧
       (tik ⟨7, true, 60, 0, 0, 0, 0⟩).1.running = true) := by
  decide

/-- C3 (amended): for an active session with last-heartbeat 0, one supervisor
tick clears the running flag exactly when pre-tick seconds-connected is at
least 60 (so at 59 or below it does not terminate), and the tick never
changes the socket handle — closing is deferred to the relay teardown. -/
theorem tik_staleness_amended (s : State) (h1 : s.sockfd ≠ -1)
    (h2 : s.running = true) (h3 : s.time_last_heartbeat = 0)
    (h4 : s.time_connected + 1 < u32lim) :
    ((tik s).1.running = false ↔ 60 ≤ s.time_connected) ∧
      (tik s).1.sockfd = s.sockfd := by
  have hguard : ¬ (s.sockfd = -1 ∨ s.running = false) := by
    simp [h1, h2]
  have htc : (s.time_connected + 1) % u32lim = s.time_connected + 1 :=
    Nat.mod_eq_of_lt h4
  have hsub : (s.time_connected + 1 + u32lim - s.time_last_heartbeat) % u32lim
      = s.time_connected + 1 := by
    rw [h3, Nat.sub_zero, Nat.add_mod_right]
    exact Nat.mod_eq_of_lt h4
  rw [tik, if_neg hguard]
  simp only [htc, hsub]
  by_cases hstale : 60 < s.time_connected + 1
  · rw [if_pos hstale]
    constructor
    · simp
      omega
    · rfl
  · rw [if_neg hstale]
    by_cases hhb : (s.time_send_heartbeat + 1) % u32lim = 20
    · rw [if_pos hhb]
      constructor
      · simp [h2]
        omega
      · rfl
    · rw [if_neg hhb]
      constructor
      · simp [h2]
        omega
      · rfl

/-- C3 witness: at seconds-connected 61 the tick terminates (60 ≤ 61) and the
socket handle stays 7. -/
theorem tik_staleness_amended_witness :
    ((tik ⟨7, true, 61, 0, 0, 0, 0⟩).1.running = false ↔ 60 ≤ 61) ∧
      (tik ⟨7, true, 61, 0, 0, 0, 0⟩).1.sockfd = 7 :=
  tik_staleness_amended ⟨7, true, 61, 0, 0, 0, 0⟩ (by decide) (by decide)
    (by decide) (by decide)

/-- C10: on a tick where the staleness condition triggers (active session,
post-increment u32 gap above 60), `tik` returns the empty string (no status
report), sends no heartbeat, and the only state changes are the incremented
seconds-connected and the cleared running flag — the socket handle, both
byte counters and both heartbeat counters are untouched. -/
theorem tik_stale_tick_frame (s : State) (h1 : s.sockfd ≠ -1)
    (h2 : s.running = true)
    (h3 : 60 < ((s.time_connected + 1) % u32lim + u32lim -
      s.time_last_heartbeat) % u32lim) :
    tik s = ({ s with
                time_connected := (s.time_connected + 1) % u32lim,
                running := false }, false, false) := by
  have hguard : ¬ (s.sockfd = -1 ∨ s.running = false) := by
    simp [h1, h2]
  rw [tik, if_neg hguard, if_pos h3]

/-- C10 witness: a stale tick at seconds-connected 61 with nonzero byte
counters and heartbeat-send counter 2 changes only the two designated
fields. -/
theorem tik_stale_tick_frame_witness :
    tik ⟨3, true, 61, 0, 2, 10, 20⟩ =
      ({ (⟨3, true, 61, 0, 2, 10, 20⟩ : State) with
          time_connected := (61 + 1) % u32lim,
          running := false }, false, false) :=
  tik_stale_tick_frame ⟨3, true, 61, 0, 2, 10, 20⟩ (by decide) (by decide)
    (by decide)

/-- Behaviour of one supervisor tick on an active, non-stale session with the
heartbeat-send counter below 20: seconds-connected increments without wrap,
staleness does not trigger, and the heartbeat counter either resets to 0 with
a heartbeat sent (on reaching 20) or just increments. -/
lemma tik_active_nonstale (s : State) (h1 : s.sockfd ≠ -1)
    (h2 : s.running = true)
    (h3 : s.time_last_heartbeat ≤ s.time_connected)
    (h4 : s.time_connected + 1 ≤ s.time_last_heartbeat + 60)
    (h5 : s.time_connected + 1 < u32lim)
    (h6 : s.time_send_heartbeat < 20) :
    tik s = if s.time_send_heartbeat + 1 = 20
      then ({ s with
              time_connected := s.time_connected + 1,
              time_send_heartbeat := 0 }, true, true)
      else ({ s with
              time_connected := s.time_connected + 1,
              time_send_heartbeat := s.time_send_heartbeat + 1 },
            false, true) := by
  have hguard : ¬ (s.sockfd = -1 ∨ s.running = false) := by
    simp [h1, h2]
  have htc : (s.time_connected + 1) % u32lim = s.time_connected + 1 :=
    Nat.mod_eq_of_lt h5
  have hsub : (s.time_connected + 1 + u32lim - s.time_last_heartbeat) % u32lim
      = s.time_connected + 1 - s.time_last_heartbeat := by
    have h7 : s.time_connected + 1 + u32lim - s.time_last_heartbeat
        = (s.time_connected + 1 - s.time_last_heartbeat) + u32lim := by
      omega
    rw [h7, Nat.add_mod_right]
    apply Nat.mod_eq_of_lt
    omega
  have hnostale : ¬ (60 < s.time_connected + 1 - s.time_last_heartbeat) := by
    omega
  have hhs : (s.time_send_heartbeat + 1) % u32lim = s.time_send_heartbeat + 1 :=
    Nat.mod_eq_of_lt (by unfold u32lim; omega)
  rw [tik, if_neg hguard]
  simp only [htc, hsub, if_neg hnostale, hhs]

/-- Number of heartbeats over `n ≤ 20` active, non-stale ticks, as a function
of the starting heartbeat-send counter `h < 20`: it is `(h + n) / 20`. -/
lemma tikCount_formula : ∀ (n : Nat) (s : State), n ≤ 20 → s.sockfd ≠ -1 →
    s.running = true → s.time_last_heartbeat ≤ s.time_connected →
    s.time_connected + n ≤ s.time_last_heartbeat + 60 →
    s.time_connected + n < u32lim → s.time_send_heartbeat < 20 →
    tikCount n s = (s.time_send_heartbeat + n) / 20 := by
  intro n
  induction n with
  | zero =>
    intro s _ _ _ _ _ _ h6
    simp [tikCount]
    omega
  | succ n ih =>
    intro s hn h1 h2 h3 h4 h5 h6
    have hstep := tik_active_nonstale s h1 h2 h3 (by omega) (by omega) h6
    by_cases hhb : s.time_send_heartbeat + 1 = 20
    · rw [if_pos hhb] at hstep
      rw [tikCount, hstep]
      have hrest := ih { s with
          time_connected := s.time_connected + 1,
          time_send_heartbeat := 0 }
        (by omega) h1 h2 (by simpa using by omega)
        (by simpa using by omega) (by simpa using by omega)
        (by simp)
      simp only at hrest
      rw [hrest]
      simp
      omega
    · rw [if_neg hhb] at hstep
      rw [tikCount, hstep]
      have hrest := ih { s with
          time_connected := s.time_connected + 1,
          time_send_heartbeat := s.time_send_heartbeat + 1 }
        (by omega) h1 h2 (by simpa using by omega)
        (by simpa using by omega) (by simpa using by omega)
        (by simp; omega)
      simp only at hrest
      rw [hrest]
      simp
      omega

/-- C5: over every run of 20 consecutive supervisor ticks on an active
session that stays non-stale throughout (and whose heartbeat-send counter is
in its reachable range, below 20), exactly one heartbeat is sent: the counter
is incremented each tick and on reaching 20 is reset with a heartbeat
emitted, regardless of other traffic. -/
theorem heartbeat_cadence (s : State) (h1 : s.sockfd ≠ -1)
    (h2 : s.running = true)
    (h3 : s.time_last_heartbeat ≤ s.time_connected)
    (h4 : s.time_connected + 20 ≤ s.time_last_heartbeat + 60)
    (h5 : s.time_connected + 20 < u32lim)
    (h6 : s.time_send_heartbeat < 20) :
    tikCount 20 s = 1 := by
  rw [tikCount_formula 20 s (by omega) h1 h2 h3 h4 h5 h6]
  omega

/-- C5 witness: a fresh session (all counters zero) sends exactly one
heartbeat during its first 20 ticks. -/
theorem heartbeat_cadence_witness : tikCount 20 ⟨5, true, 0, 0, 0, 0, 0⟩ = 1 :=
  heartbeat_cadence ⟨5, true, 0, 0, 0, 0, 0⟩ (by decide) (by decide)
    (by decide) (by decide) (by decide) (by decide)

/-- With `running` false, `recv_message` always fails (its
`size < sizeof(u32) || !running` test). -/
lemma recv_message_not_running (ip_requesting : Bool) (s : List Nat) :
    recv_message false ip_requesting s = none := by
  simp [recv_message]

/-- If none of the frames decodable from the stream (up to the fuel bound) is
an `IP_REPLY`, the request polling loop returns `none`. -/
lemma request_go_none : ∀ (fuel : Nat) (s : List Nat),
    (∀ m ∈ parseFrames fuel s, m.type ≠ 101) →
    request_go true fuel s = none := by
  intro fuel
  induction fuel with
  | zero => intro s _; rfl
  | succ fuel ih =>
    intro s h
    rw [request_go]
    cases hrm : recv_message true true s with
    | none => rfl
    | some p =>
      obtain ⟨m, rest⟩ := p
      have hframes : parseFrames (fuel + 1) s = m :: parseFrames fuel rest := by
        rw [parseFrames, hrm]
      have hm : m.type ≠ 101 := h m (by rw [hframes]; exact List.mem_cons_self m _)
      dsimp only
      rw [if_neg hm]
      exact ih rest (fun m' hm' => h m' (by rw [hframes]; exact List.mem_cons_of_mem m hm'))

/-- C4: if no AddressReply (`IP_REPLY`, type 101) frame is among the frames
the polling loop can decode before its accumulated elapsed time reaches
2,000,000 microseconds (at most 400 decode attempts, 5,000 microseconds
each), `request` returns the empty string and closes the session: the socket
is shut down and the handle cleared to -1. This holds whichever value the
`running` flag has during the request. -/
theorem request_timeout (running : Bool) (sockfd : Int) (s : List Nat)
    (hs : sockfd ≠ -1) (h : ∀ m ∈ parseFrames 400 s, m.type ≠ 101) :
    request running sockfd s = (none, -1) := by
  rw [request, if_neg hs]
  cases running with
  | false =>
    have h400 : request_go false 400 s = none := by
      rw [request_go, recv_message_not_running]
    rw [h400]
  | true =>
    rw [request_go_none 400 s h]

/-- C4 witness: a stream delivering nothing (every read times out / the
stream is empty) makes the request time out, return the empty string, and
clear the socket handle. -/
theorem request_timeout_witness : request true 5 [] = (none, -1) :=
  request_timeout true 5 [] (by decide) (by decide)
